import Mathlib

/-!
# Shallow embedding of the CoachGPT autoplan engine (`src/autoplan.js`)

`src/autoplan.js` contains two revisions of the module; the second
(current) revision starts at the `COACH_GPT_VERSION = 'v1.5'` banner and is
the one wired into `runDailySync`.  Line numbers cited below refer to the
concatenated file.  JavaScript numbers are modelled as `ℚ` (weights,
volumes) and `ℕ`/`ℤ` (reps, counts, millisecond timestamps); JS `Date`
values are millisecond timestamps (`ℤ`); `Date.setDate(d - k)` is modelled
as subtracting `k * 86400000` ms.  Fallible code returns `Except`/`Option`.
-/

namespace Autoplan

/-- Milliseconds per day, the divisor used by `Math.floor((now - date) / (1000*60*60*24))`. -/
def dayMs : ℤ := 86400000

/-- `KG_TO_LBS = 2.20462` (autoplan.js line 766). -/
def KG_TO_LBS : ℚ := 220462 / 100000

/-- JS `String.prototype.toLowerCase` (ASCII, as used on muscle/equipment names). -/
def lowerStr (s : String) : String := ⟨s.data.map Char.toLower⟩

/-- `pat` is a prefix of `l` (on character lists, so that it reduces in the
kernel). -/
def hasPrefixChars : List Char → List Char → Bool
  | [], _ => true
  | _ :: _, [] => false
  | p :: ps, c :: cs => p == c && hasPrefixChars ps cs

/-- `pat` occurs contiguously in `l`. -/
def hasInfixChars (pat : List Char) : List Char → Bool
  | [] => hasPrefixChars pat []
  | c :: cs => hasPrefixChars pat (c :: cs) || hasInfixChars pat cs

/-- JS `s.includes(pat)` (substring containment; `true` for empty `pat`). -/
def strIncludes (s pat : String) : Bool :=
  hasInfixChars pat.data s.data

/-- `Number.prototype.toFixed(1)` followed by `parseFloat`: round to one
decimal place (ties follow `round`; the JS float quirks on ties are not
observable in any claim). -/
def toFixed1 (x : ℚ) : ℚ := (round (x * 10) : ℤ) / 10

/-- The split names occurring in the program: the four rotation splits of the
current scheduler, plus `Cardio` and `Abs` which appear as keys of the v1
`muscleTargets` table and in `autoplan`'s `workoutType === 'Cardio'` branches. -/
inductive Split
  | Push | Pull | Legs | Core | Cardio | Abs
deriving DecidableEq, Repr

/-- The key order of the JS object literals `{ Push: …, Pull: …, Legs: …, Core: … }`
(`weeklySplitFrequency`, `splitMap`, `lastHit`), which fixes iteration order. -/
def fourSplits : List Split := [.Push, .Pull, .Legs, .Core]

/-! ## Data model (spec §3, sourced from the Hevy API payloads) -/

/-- A logged set (`exercise.sets[i]`): optional weight in kg, reps, duration. -/
structure SetRecord where
  weight_kg : Option ℚ
  reps : Option ℕ
  duration_seconds : Option ℕ
deriving DecidableEq, Repr

/-- One performed exercise inside a workout (`workout.exercises[i]`). -/
structure ExercisePerformance where
  title : String
  templateId : String
  sets : List SetRecord
deriving DecidableEq, Repr

/-- A workout session; `start_time` in ms.  The history list handed to
`autoplan` is ordered newest-first (`workouts[0]` is the most recently
completed session, see autoplan.js line 1492). -/
structure Workout where
  start_time : ℤ
  exercises : List ExercisePerformance
deriving DecidableEq, Repr

/-- An exercise template from the catalog. -/
structure Template where
  id : String
  title : String
  primary_muscle_group : String
  equipment : String
deriving DecidableEq, Repr

/-! ## Shared retry wrapper (`makeApiRequestWithRetry`, autoplan.js lines 817-837)

The remote service is modelled as a function from the global call counter to
either success or an error carrying `err.response?.status : Option ℕ`
(`none` = no HTTP response).  A run of the wrapper returns the final result,
the next call index (so total calls made = final index - start index), and
the list of back-off delays slept, in order. -/

/-- `status === 429 || status >= 500` — the retryable statuses
(`isRateLimit`/`isServerError`, lines 826-827; `undefined` compares false). -/
def isRetryableStatus : Option ℕ → Bool
  | some s => s == 429 || 500 ≤ s
  | none => false

/-- The loop of `makeApiRequestWithRetry`, structurally recursive over the
list of remaining iteration indices (the JS loop runs `attempt = 1 ..
maxAttempts`, so the loop is started on `List.range' 1 maxAttempts` and the
guard `attempt === maxAttempts` is "no further attempt remains").  The `[]`
case is the fall-off-the-loop case, unreachable for `maxAttempts ≥ 1`
(callers pass 5 or 3). -/
def apiRetryGo (remote : ℕ → Except (Option ℕ) Unit) (baseDelayMs : ℕ) :
    List ℕ → ℕ → Except (Option ℕ) Unit × ℕ × List ℕ
  | [], callIdx => (.error none, callIdx, [])
  | attempt :: restAttempts, callIdx =>
    match remote callIdx with
    | .ok u => (.ok u, callIdx + 1, [])
    | .error status =>
      if restAttempts.isEmpty || !isRetryableStatus status then
        (.error status, callIdx + 1, [])
      else
        let delay := baseDelayMs * 2 ^ (attempt - 1)
        let rest := apiRetryGo remote baseDelayMs restAttempts (callIdx + 1)
        (rest.1, rest.2.1, delay :: rest.2.2)

/-- `makeApiRequestWithRetry(method, url, data, headers, maxAttempts = 5, baseDelayMs = 2000)`:
the loop starts at `attempt = 1`. -/
def makeApiRequestWithRetry (remote : ℕ → Except (Option ℕ) Unit)
    (maxAttempts baseDelayMs callIdx : ℕ) : Except (Option ℕ) Unit × ℕ × List ℕ :=
  apiRetryGo remote baseDelayMs (List.range' 1 maxAttempts) callIdx

/-! ## `updateRoutine` retry loop (autoplan.js lines 1415-1441)

Each of the (up to) `updateAttempts = 5` outer attempts issues the PUT
through `makeApiRequestWithRetry(…, 3, 1000)`; on failure of the whole inner
wrapper, the outer loop sleeps `backoff * 2 ** (attempt - 1)` with
`backoff = 2000` and retries; after the 5th failure the error propagates
(no fall-back to creating a routine). -/
def updateRoutineGo (remote : ℕ → Except (Option ℕ) Unit) :
    List ℕ → ℕ → Except String Unit × ℕ × List ℕ
  | [], callIdx => (.error "Failed to update routine after 5 attempts", callIdx, [])
  | attempt :: restAttempts, callIdx =>
    let inner := apiRetryGo remote 1000 (List.range' 1 3) callIdx
    match inner.1 with
    | .ok _ => (.ok (), inner.2.1, inner.2.2)
    | .error _ =>
      if restAttempts.isEmpty then
        (.error "Failed to update routine after 5 attempts", inner.2.1, inner.2.2)
      else
        let delay := 2000 * 2 ^ (attempt - 1)
        let rest := updateRoutineGo remote restAttempts inner.2.1
        (rest.1, rest.2.1, inner.2.2 ++ delay :: rest.2.2)

/-- `updateRoutine`: the outer loop runs `attempt = 1 .. 5`, call counter 0. -/
def updateRoutine (remote : ℕ → Except (Option ℕ) Unit) :
    Except String Unit × ℕ × List ℕ :=
  updateRoutineGo remote (List.range' 1 5) 0

/-- Scenario D's remote service: HTTP 429 on the first four calls, success on
the fifth and every later call. -/
def remote429x4 : ℕ → Except (Option ℕ) Unit := fun k =>
  if k < 4 then .error (some 429) else .ok ()

/-! ## History Analyzer (`analyzeHistory`, autoplan.js lines 842-950)

Only the components that the claims are about are embedded: the progression
data/analysis (lines 899-940) and the weekly split frequency with its
per-workout split classification (lines 850-879).  Template resolution is
`exerciseTemplates.find(t => t.id === exercise.exercise_template_id)`. -/

/-- `exerciseTemplates.find(t => t.id === e.exercise_template_id)`. -/
def findTemplate (templates : List Template) (e : ExercisePerformance) : Option Template :=
  templates.find? (fun t => t.id == e.templateId)

/-- One entry pushed into `progressionData[title]` (lines 902-913): a set with
both weight and reps present, `weight_lbs = weight_kg * KG_TO_LBS`,
`volume = weight_lbs * reps`. -/
structure ProgEntry where
  date : ℤ
  weight_kg : ℚ
  weight_lbs : ℚ
  reps : ℕ
  volume : ℚ
deriving DecidableEq, Repr

/-- `progressionData[title]`: traversal order is workout order (newest-first
input!), then exercise order, then set order; only exercises whose template
resolves contribute, and only sets with both `weight_kg` and `reps` present
(lines 858, 902-913; the window is `workouts.slice(0, 30)`, line 844). -/
def progressionData (templates : List Template) (workouts : List Workout)
    (title : String) : List ProgEntry :=
  (workouts.take 30).flatMap fun w =>
    w.exercises.flatMap fun e =>
      if e.title = title ∧ (findTemplate templates e).isSome then
        e.sets.filterMap fun s =>
          match s.weight_kg, s.reps with
          | some wk, some r =>
            some ⟨w.start_time, wk, wk * KG_TO_LBS, r, wk * KG_TO_LBS * r⟩
          | _, _ => none
      else []

/-- The suggestion string of a `ProgressionRecord` (lines 925-932), as a
structured value.  `increase t` stands for `"Increase weight to ${t} lbs"`,
`tryIncrease t` for `"Try increasing weight to ${t} lbs"` and `maintain` for
`"Maintain or increase reps"`; `t` is the number printed with `toFixed(1)`. -/
inductive Suggestion
  | increase (targetLbs : ℚ)
  | tryIncrease (targetLbs : ℚ)
  | maintain
deriving DecidableEq, Repr

/-- `progression?.suggestion.includes("Increase weight to")` — case-sensitive,
so only the `increase` string matches. -/
def Suggestion.mentionsIncreaseWeightTo : Suggestion → Bool
  | .increase _ => true
  | _ => false

/-- `progressionAnalysis[title]` (lines 919-940): `lastWeightLbs` is stored via
`toFixed(1)`, hence kept rounded here. -/
structure ProgressionRecord where
  lastWeightLbs : ℚ
  lastReps : ℕ
  volumeChange : ℚ
  suggestion : Suggestion
deriving DecidableEq, Repr

/-- Lines 920-939: kept only when `sets.length >= 2`; `lastSet` is
`sets[sets.length-1]` and `secondLastSet` is `sets[sets.length-2]` — i.e. the
*last two pushed* entries (matching on the reversed list).  `1.05 = 21/20`. -/
def progressionRecord (templates : List Template) (workouts : List Workout)
    (title : String) : Option ProgressionRecord :=
  match (progressionData templates workouts title).reverse with
  | lastSet :: secondLastSet :: _ =>
    let volumeChange := lastSet.volume - secondLastSet.volume
    let suggestion : Suggestion :=
      if 0 < volumeChange then .increase (toFixed1 (lastSet.weight_lbs * (21 / 20)))
      else if 10 ≤ lastSet.reps then .tryIncrease (toFixed1 (lastSet.weight_lbs * (21 / 20)))
      else .maintain
    some ⟨toFixed1 lastSet.weight_lbs, lastSet.reps, volumeChange, suggestion⟩
  | _ => none

/-- Keep the first occurrence of each element (JS object keys are in
first-insertion order). -/
def firstDedupAux {α : Type} [DecidableEq α] : List α → List α → List α
  | [], _ => []
  | x :: xs, seen =>
    if x ∈ seen then firstDedupAux xs seen else x :: firstDedupAux xs (x :: seen)

/-- The key order of `progressionData` (and hence of
`Object.entries(progressionAnalysis)`): exercise titles in first-encounter
order over the traversal, restricted to exercises whose template resolves. -/
def progressionTitles (templates : List Template) (workouts : List Workout) : List String :=
  firstDedupAux
    ((workouts.take 30).flatMap fun w =>
      w.exercises.filterMap fun e =>
        if (findTemplate templates e).isSome then some e.title else none) []

/-- `progressionAnalysis` as the ordered association list that
`Object.entries` iterates (titles with fewer than 2 entries are dropped,
line 921). -/
def progressionAnalysis (templates : List Template) (workouts : List Workout) :
    List (String × ProgressionRecord) :=
  (progressionTitles templates workouts).filterMap fun title =>
    (progressionRecord templates workouts title).map (fun r => (title, r))

/-! ### Weekly split classification (lines 864-879) -/

/-- The muscle keyword lists of the classification chain in `analyzeHistory`
(lines 870-873) and of `splitMap` in `determineWorkoutTypeByLastHit`
(lines 953-958) — they are identical. -/
def splitMuscles : Split → List String
  | .Push => ["chest", "shoulders", "triceps"]
  | .Pull => ["lats", "upper_back", "biceps", "rear_delts"]
  | .Legs => ["quads", "hamstrings", "glutes", "calves", "full_body"]
  | .Core => ["abdominals", "obliques", "core", "lower_back"]
  | _ => []

/-- The split one exercise contributes in the classification chain: first
matching branch of the `if/else if` ladder on
`primaryMuscle.includes(m)` over the lower-cased primary muscle group;
`none` when the template does not resolve or no branch matches. -/
def exerciseSplit (templates : List Template) (e : ExercisePerformance) : Option Split :=
  match findTemplate templates e with
  | none => none
  | some t =>
    let m := lowerStr t.primary_muscle_group
    if (splitMuscles .Push).any (fun k => strIncludes m k) then some .Push
    else if (splitMuscles .Pull).any (fun k => strIncludes m k) then some .Pull
    else if (splitMuscles .Legs).any (fun k => strIncludes m k) then some .Legs
    else if (splitMuscles .Core).any (fun k => strIncludes m k) then some .Core
    else none

/-- `workoutSplit` after the loop over a workout's exercises (lines 865-875):
each classifiable exercise *overwrites* the previous value, so the final
value is the split of the last classifiable exercise. -/
def classifyWorkout (templates : List Template) (w : Workout) : Option Split :=
  w.exercises.foldl
    (fun acc e =>
      match exerciseSplit templates e with
      | some s => some s
      | none => acc)
    none

/-- `weeklySplitFrequency = { Push: 0, Pull: 0, Legs: 0, Core: 0 }` (line 851). -/
structure WeeklySplitFrequency where
  push : ℕ
  pull : ℕ
  legs : ℕ
  core : ℕ
deriving DecidableEq, Repr

/-- Lookup `weeklySplitFrequency[split]`; the object has only the four keys. -/
def WeeklySplitFrequency.count (wf : WeeklySplitFrequency) : Split → ℕ
  | .Push => wf.push
  | .Pull => wf.pull
  | .Legs => wf.legs
  | .Core => wf.core
  | _ => 0

/-- `weeklySplitFrequency[workoutSplit]++` (line 878); no-op when the
workout has no classifiable exercise. -/
def bumpSplit (wf : WeeklySplitFrequency) : Option Split → WeeklySplitFrequency
  | some .Push => { wf with push := wf.push + 1 }
  | some .Pull => { wf with pull := wf.pull + 1 }
  | some .Legs => { wf with legs := wf.legs + 1 }
  | some .Core => { wf with core := wf.core + 1 }
  | _ => wf

/-- Lines 850-879: over the 30 most recent workouts, count the workouts of
the last 7 days (`workoutDate >= oneWeekAgo`) by their classified split. -/
def weeklySplitFrequency (templates : List Template) (workouts : List Workout)
    (now : ℤ) : WeeklySplitFrequency :=
  (workouts.take 30).foldl
    (fun wf w =>
      if now - 7 * dayMs ≤ w.start_time then bumpSplit wf (classifyWorkout templates w)
      else wf)
    ⟨0, 0, 0, 0⟩

/-! ## Split Scheduler, current version
(`determineWorkoutTypeByLastHit`, autoplan.js lines 952-1024)

The function reads `historyAnalysis.weeklySplitFrequency` from module state;
here that table is an explicit parameter (`autoplan` computes it via
`analyzeHistory` just before calling, lines 1490-1493). -/

/-- `splitsTouched` membership: some exercise of the workout resolves to a
template whose lower-cased muscle group contains one of the split's
keywords (lines 967-981). -/
def touchesSplit (templates : List Template) (w : Workout) (s : Split) : Bool :=
  w.exercises.any fun e =>
    match findTemplate templates e with
    | none => false
    | some t => (splitMuscles s).any fun m => strIncludes (lowerStr t.primary_muscle_group) m

/-- `lastHit[split]`: the latest `start_time` among workouts touching the
split (lines 960-988); `none` when never touched.  Here the whole `workouts`
argument is scanned (this function does *not* slice to 30). -/
def lastHit (templates : List Template) (workouts : List Workout) (s : Split) : Option ℤ :=
  (workouts.filter (fun w => touchesSplit templates w s)).foldl
    (fun acc w =>
      match acc with
      | none => some w.start_time
      | some d => some (max d w.start_time))
    none

/-- `daysAgo` of one split: `Math.floor((now - date) / 86400000)`, `99` when
never hit (line 992). -/
def splitDaysAgo (templates : List Template) (workouts : List Workout) (now : ℤ)
    (s : Split) : ℤ :=
  match lastHit templates workouts s with
  | some d => (now - d).fdiv dayMs
  | none => 99

/-- `splitAges` in `Object.entries(lastHit)` order (lines 991-994). -/
def splitAges (templates : List Template) (workouts : List Workout) (now : ℤ) :
    List (Split × ℤ) :=
  fourSplits.map fun s => (s, splitDaysAgo templates workouts now s)

/-- `Object.entries(weeklySplitFrequency)` as `{split, freq}` pairs (line 1008). -/
def splitFrequencies (wf : WeeklySplitFrequency) : List (Split × ℕ) :=
  [(.Push, wf.push), (.Pull, wf.pull), (.Legs, wf.legs), (.Core, wf.core)]

/-- `splitFrequencies.sort((a, b) => a.freq - b.freq)[0].split` (lines
1008-1010): JS `Array.prototype.sort` is stable, matching `insertionSort`
with `a.freq ≤ b.freq`; the list is a permutation of four entries, so the
`headD` default is unreachable. -/
def leastFrequentSplit (wf : WeeklySplitFrequency) : Split :=
  (((splitFrequencies wf).insertionSort fun a b => a.2 ≤ b.2).headD (.Push, 0)).1

/-- `splitAges.sort((a, b) => b.daysAgo - a.daysAgo)[0]` (lines 1020-1021):
stable descending sort by `daysAgo`; the `headD` default is unreachable. -/
def mostOverdueSplit (templates : List Template) (workouts : List Workout) (now : ℤ) :
    Split :=
  (((splitAges templates workouts now).insertionSort fun a b => b.2 ≤ a.2).headD
    (.Push, 0)).1

/-- `determineWorkoutTypeByLastHit` (lines 952-1024). -/
def determineWorkoutTypeByLastHit (templates : List Template) (workouts : List Workout)
    (wf : WeeklySplitFrequency) (now : ℤ) : Split :=
  let splitsNotHitThisWeek := fourSplits.filter fun s => wf.count s == 0
  match splitsNotHitThisWeek with
  | chosen :: _ => chosen
  | [] =>
    let leastFrequent := leastFrequentSplit wf
    let recentSplits :=
      ((splitAges templates workouts now).filter fun p => decide (p.2 < 3)).map Prod.fst
    if leastFrequent ∈ recentSplits then mostOverdueSplit templates workouts now
    else leastFrequent

/-! ## Split Scheduler, legacy version (`determineWorkoutType`, autoplan.js
lines 175-235, first revision of the file; not called by either revision's
`autoplan`, which use `getNextSplit` (v1) resp.
`determineWorkoutTypeByLastHit` (v2)). -/

/-- The persisted `{ workoutType, date }` record of `last_scheduled.json`
(`readLastScheduled`, lines 48-53 / 806-811). -/
structure LastScheduled where
  workoutType : Option Split
  date : Option ℤ
deriving DecidableEq, Repr

/-- Calendar-day index of a timestamp: `toISOString().split('T')[0]`
comparison between two `YYYY-MM-DD` strings coincides with comparison of the
day numbers. -/
def dayIndex (t : ℤ) : ℤ := t.fdiv dayMs

/-- v1 `muscleToWorkoutType` (lines 20-33): exact lower-cased key lookup. -/
def muscleToWorkoutType (m : String) : Option Split :=
  if m = "chest" then some .Push
  else if m = "shoulders" then some .Push
  else if m = "triceps" then some .Push
  else if m = "lats" then some .Pull
  else if m = "upper_back" then some .Pull
  else if m = "biceps" then some .Pull
  else if m = "quads" then some .Legs
  else if m = "hamstrings" then some .Legs
  else if m = "glutes" then some .Legs
  else if m = "calves" then some .Legs
  else if m = "cardio" then some .Cardio
  else if m = "full_body" then some .Legs
  else none

/-- v1 `muscleTargets` (lines 12-18), in key order. -/
def muscleTargetsV1 : List (Split × List String) :=
  [(.Push, ["Chest", "Shoulders", "Triceps"]),
   (.Pull, ["Lats", "Upper Back", "Biceps"]),
   (.Legs, ["Quads", "Hamstrings", "Glutes", "Calves"]),
   (.Cardio, ["Cardio"]),
   (.Abs, ["Abdominals", "Obliques"])]

/-- v1 `muscleGroupFrequency[m]` of `analyzeHistory` (lines 112-113): the
number of performed exercises (over the whole history argument) whose
template resolves and has lower-cased primary muscle group exactly `m`. -/
def muscleGroupFrequency (templates : List Template) (workouts : List Workout)
    (m : String) : ℕ :=
  (workouts.flatMap (fun w => w.exercises)).countP fun e =>
    match findTemplate templates e with
    | some t => lowerStr t.primary_muscle_group == m
    | none => false

/-- `recentSplits` of the legacy scheduler (lines 191-204): per workout of
the first three, the distinct splits of its exercises in first-seen order
(`muscleToWorkoutType` lookup), concatenated across workouts. -/
def recentSplitsV1 (templates : List Template) (workouts : List Workout) : List Split :=
  (workouts.take 3).flatMap fun w =>
    firstDedupAux
      (w.exercises.filterMap fun e =>
        (findTemplate templates e).bind fun t =>
          muscleToWorkoutType (lowerStr t.primary_muscle_group))
      []

/-- The rotation part of the legacy scheduler (lines 190-234), reached only
when the retry check does not fire. -/
def determineWorkoutTypeRotation (templates : List Template) (workouts : List Workout) :
    Split :=
  let recentSplits := recentSplitsV1 templates workouts
  let lastSplit := recentSplits.head?
  let splitScores : List (Split × ℕ × ℕ) :=
    muscleTargetsV1.map fun p =>
      (p.1, (p.2.map fun m => muscleGroupFrequency templates workouts (lowerStr m)).sum,
        recentSplits.count p.1)
  let preferred :=
    (splitScores.filter fun s =>
        match lastSplit with
        | none => true
        | some a => s.1 != a).insertionSort
      fun a b => a.2.1 < b.2.1 ∨ (a.2.1 = b.2.1 ∧ a.2.2 ≤ b.2.2)
  match preferred with
  | p :: _ => p.1
  | [] =>
    ((splitScores.insertionSort fun a b => a.2.1 ≤ b.2.1).headD (.Push, 0, 0)).1

/-- `determineWorkoutType` (lines 175-235).  The retry check (lines 180-188):
when both the persisted split and its date are present and either no workout
was ever completed or the persisted ISO *date* is strictly after the last
completed workout's ISO date, the persisted split is returned before any
rotation logic. -/
def determineWorkoutType (templates : List Template) (workouts : List Workout)
    (lastScheduled : LastScheduled) (lastCompleted : Option Workout) : Split :=
  match lastScheduled.workoutType, lastScheduled.date with
  | some wt, some d =>
    (match lastCompleted with
     | none => wt
     | some w =>
       if dayIndex w.start_time < dayIndex d then wt
       else determineWorkoutTypeRotation templates workouts)
  | _, _ => determineWorkoutTypeRotation templates workouts

/-- The scheduling step of the current `autoplan` (lines 1489-1503): it
computes `analyzeHistory` and calls `determineWorkoutTypeByLastHit`; the
persisted `lastScheduled` record is *written* (line 1503) but never read on
this path, so it is a dead parameter of the decision. -/
def autoplanScheduleSplit (templates : List Template) (workouts : List Workout)
    (lastScheduled : LastScheduled) (now : ℤ) : Split :=
  let _ := lastScheduled
  determineWorkoutTypeByLastHit templates workouts
    (weeklySplitFrequency templates workouts now) now

/-! ## Routine Synchronizer identification (`autoplan`, lines 1535-1593)

`validateRoutineId` always returns `true` (lines 1411-1413), so the decision
between update and create depends only on the CoachGPT title search and the
cache-file check.  The cache file is `none` when `data/routines.json` does
not exist (in which case the code proceeds with the API-provided id). -/

/-- A remote routine as listed by the service / cached on disk. -/
structure RemoteRoutine where
  id : String
  title : String
deriving DecidableEq, Repr

/-- The Create-or-Update decision. -/
inductive SyncDecision
  | create
  | update (id : String)
deriving DecidableEq, Repr

/-- `updatedRoutines.find(r => r.title.includes('CoachGPT'))` (line 1538). -/
def findExistingRoutine (routines : List RemoteRoutine) : Option RemoteRoutine :=
  routines.find? fun r => strIncludes r.title "CoachGPT"

/-- Lines 1538-1593: if a CoachGPT-titled routine is found and the cache file
exists, its id must also appear in the cache (`cachedRoutines.find(r => r.id
=== existingRoutine.id)`), else the routine is discarded and a new one is
created. -/
def syncDecision (updatedRoutines : List RemoteRoutine)
    (cacheFile : Option (List RemoteRoutine)) : SyncDecision :=
  match findExistingRoutine updatedRoutines with
  | none => .create
  | some r =>
    match cacheFile with
    | none => .update r.id
    | some cached => if cached.any (fun c => c.id == r.id) then .update r.id else .create

/-! ## Routine Builder (`buildRoutinePayload`, autoplan.js lines 1205-1382)

The picks handed in by `pickExercises`/`pickAbsExercises` are spread
templates plus a coaching note; only the fields used by the builder are
kept.  `ex.id && typeof ex.id === 'string'` is modelled by `id : Option
String`. -/

/-- A selected exercise as passed to the builder. -/
structure Pick where
  id : Option String
  title : String
  primary_muscle_group : String
  equipment : String
deriving DecidableEq, Repr

/-- `findSimilarExerciseWeight` (lines 1216-1241).  The regex parse of
`"Increase weight to (\d+\.\d+)"` recovers exactly the `toFixed(1)` value
stored in an `increase` suggestion (the `tryIncrease` string does not
contain the case-sensitive needle `"Increase weight to"`); otherwise
`parseFloat(lastWeightLbs)` recovers the stored rounded weight.  Both are
converted back with `/ KG_TO_LBS`. -/
def weightFromRecord (p : ProgressionRecord) : ℚ :=
  match p.suggestion with
  | .increase t => t / KG_TO_LBS
  | _ => p.lastWeightLbs / KG_TO_LBS

/-- The borrow loop of `findSimilarExerciseWeight` (lines 1225-1235): the
first entry of `Object.entries(progressionAnalysis)` whose template (found
*by title*) matches the exercise's lower-cased muscle group and equipment. -/
def borrowRecord (templates : List Template) (progA : List (String × ProgressionRecord))
    (ex : Pick) : Option ProgressionRecord :=
  (progA.find? fun p =>
      match templates.find? (fun t => t.title == p.1) with
      | some t =>
        lowerStr t.primary_muscle_group == lowerStr ex.primary_muscle_group &&
          lowerStr t.equipment == lowerStr ex.equipment
      | none => false).map Prod.snd

/-- `findSimilarExerciseWeight` (lines 1216-1241), including the equipment
defaults of lines 1236-1240. -/
def findSimilarExerciseWeight (templates : List Template)
    (progA : List (String × ProgressionRecord)) (ex : Pick) : ℚ :=
  match (progA.find? fun p => p.1 == ex.title).map Prod.snd with
  | some p => weightFromRecord p
  | none =>
    match borrowRecord templates progA ex with
    | some p => weightFromRecord p
    | none =>
      if lowerStr ex.equipment = "resistance_band" then 10
      else if lowerStr ex.equipment = "dumbbell" then 10
      else if lowerStr ex.equipment = "barbell" then 20
      else if lowerStr ex.equipment = "machine" then 15
      else 0

/-- `isDurationBased` (lines 1243-1251). -/
def isDurationBased (ex : Pick) : Bool :=
  let titleLower := lowerStr ex.title
  let isAbs := strIncludes (lowerStr ex.primary_muscle_group) "abdominals" ||
    strIncludes (lowerStr ex.primary_muscle_group) "obliques"
  let isBodyweight := ex.equipment.isEmpty || lowerStr ex.equipment = "none"
  let durationKeywords := ["plank", "hold", "dead bug", "side bridge", "wall sit",
    "hanging", "isometric", "static", "bridge", "superman", "bird dog", "l-sit"]
  durationKeywords.any (fun k => strIncludes titleLower k) ||
    (isAbs && isBodyweight && !strIncludes titleLower "crunch" &&
      !strIncludes titleLower "twist")

/-- One planned set of a routine entry (the `type: 'normal'` field is
constant and omitted). -/
structure PlannedSet where
  reps : Option ℕ
  weight_kg : Option ℚ
  duration_seconds : Option ℕ
deriving DecidableEq, Repr

/-- The three sets of an entry: duration-based exercises get
`{duration_seconds: 45, weight_kg: 0}` (no reps), load-based ones
`{reps, weight_kg}` (no duration) — lines 1272-1276 and the analogous
finisher/extra literals. -/
def mkSets (ex : Pick) (reps : ℕ) (w : ℚ) : List PlannedSet :=
  if isDurationBased ex then List.replicate 3 ⟨none, some 0, some 45⟩
  else List.replicate 3 ⟨some reps, some w, none⟩

/-- One element of `routinePayload.exercises`. -/
structure RoutineEntry where
  exercise_template_id : String
  superset_id : Option ℕ
  rest_seconds : ℕ
  notes : String
  sets : List PlannedSet
deriving DecidableEq, Repr

/-- The built payload (title/notes of lines 1253-1257). -/
structure RoutinePayload where
  title : String
  notes : String
  exercises : List RoutineEntry
deriving DecidableEq, Repr

/-- The printed split name used in the payload title. -/
def splitName : Split → String
  | .Push => "Push"
  | .Pull => "Pull"
  | .Legs => "Legs"
  | .Core => "Core"
  | .Cardio => "Cardio"
  | .Abs => "Abs"

/-- The id of a valid pick (`validExercises` guarantees `id` is present; the
default is unreachable there). -/
def Pick.idStr (ex : Pick) : String := ex.id.getD ""

/-- Solo-entry loops with the in-loop `break` on the accumulated length
(lines 1300-1315, 1318-1333, 1339-1352): append `mk ex` and the pick's id,
stop as soon as the entry count reaches `stopAt`. -/
def addSoloEntries (mk : Pick → RoutineEntry) (stopAt : ℕ) :
    List RoutineEntry × List String → List Pick → List RoutineEntry × List String
  | (entries, used), [] => (entries, used)
  | (entries, used), ex :: rest =>
    let entries' := entries ++ [mk ex]
    let used' := ex.idStr :: used
    if stopAt ≤ entries'.length then (entries', used')
    else addSoloEntries mk stopAt (entries', used') rest

/-- The final safety-net dedup by template id, keeping first occurrences
(lines 1360-1369). -/
def dedupById : List RoutineEntry → List String → List RoutineEntry
  | [], _ => []
  | e :: rest, seen =>
    if e.exercise_template_id ∈ seen then dedupById rest seen
    else e :: dedupById rest (e.exercise_template_id :: seen)

/-- The superset block (lines 1262-1297): `Math.min(validExercises.length,
validAbsExercises.length, 3)` pairs in order (`zip` truncates to the shorter
list); each pair contributes a strength entry (8 reps) and an abs entry (10
reps) sharing superset id `i`, 30 s rest. -/
def supersetBlock (fw : Pick → ℚ) (pairs : List (Pick × Pick)) : List RoutineEntry :=
  pairs.enum.flatMap fun q =>
    [⟨q.2.1.idStr, some q.1, 30, "Superset with: " ++ q.2.2.title,
        mkSets q.2.1 8 (fw q.2.1)⟩,
      ⟨q.2.2.idStr, some q.1, 30, "Superset with: " ++ q.2.1.title,
        mkSets q.2.2 10 (fw q.2.2)⟩]

/-- The `allExercises`/`usedExerciseIds` pair after all four assembly phases
(lines 1259-1353), before the cap and the dedup. -/
def builderState (templates : List Template)
    (progA : List (String × ProgressionRecord))
    (validExercises validAbsExercises : List Pick) :
    List RoutineEntry × List String :=
  let fw := findSimilarExerciseWeight templates progA
  let pairs := (validExercises.zip validAbsExercises).take 3
  let st0 := (supersetBlock fw pairs, pairs.flatMap fun p => [p.1.idStr, p.2.idStr])
  -- up to 2 solo strength finishers, `break` at 7 entries (lines 1299-1315)
  let st1 := addSoloEntries
    (fun ex => ⟨ex.idStr, none, 90, "Finisher – go all in 💪", mkSets ex 8 (fw ex)⟩) 7
    st0
    ((validExercises.filter fun ex => ex.idStr ∉ st0.2).take 2)
  -- at most 1 abs finisher, `break` at 8 entries (lines 1317-1333)
  let st2 := addSoloEntries
    (fun ex => ⟨ex.idStr, none, 60, "Abs finisher – controlled reps",
      mkSets ex 10 (fw ex)⟩) 8
    st1
    ((validAbsExercises.filter fun ex => ex.idStr ∉ st1.2).take 1)
  -- pad to 6 with leftovers, `break` at 8 entries (lines 1335-1353)
  if st2.1.length < 6 then
    addSoloEntries
      (fun ex => ⟨ex.idStr, none, 60, "Extra – controlled reps",
        mkSets ex 10 (fw ex)⟩) 8
      st2
      (((validExercises ++ validAbsExercises).filter fun ex => ex.idStr ∉ st2.2).take
        (6 - st2.1.length))
  else st2

/-- `buildRoutinePayload` (lines 1205-1382). -/
def buildRoutinePayload (templates : List Template)
    (progA : List (String × ProgressionRecord)) (workoutType : Split)
    (exercises absExercises : List Pick) : Except String RoutinePayload :=
  let validExercises := exercises.filter fun ex => ex.id.isSome
  let validAbsExercises := absExercises.filter fun ex => ex.id.isSome
  if validExercises.isEmpty && validAbsExercises.isEmpty then
    .error "No valid exercises to create routine"
  else
    -- assembly (lines 1259-1353), cap at 8 (lines 1355-1358),
    -- dedup by template id (lines 1360-1370)
    .ok ⟨"CoachGPT – " ++ splitName workoutType ++ " + Abs",
      "Core focus + stability + abs finishers. Push your pace 💥",
      dedupById
        ((builderState templates progA validExercises validAbsExercises).1.take 8) []⟩

/-! ## Order instances for the JS stable sorts -/

instance : IsTotal (Split × ℕ) (fun a b => a.2 ≤ b.2) :=
  ⟨fun a b => Nat.le_total a.2 b.2⟩

instance : IsTrans (Split × ℕ) (fun a b => a.2 ≤ b.2) :=
  ⟨fun _ _ _ h h' => Nat.le_trans h h'⟩

instance : IsTotal (Split × ℤ) (fun a b => b.2 ≤ a.2) :=
  ⟨fun a b => (Int.le_total a.2 b.2).symm⟩

instance : IsTrans (Split × ℤ) (fun a b => b.2 ≤ a.2) :=
  ⟨fun _ _ _ h h' => le_trans h' h⟩

/-! ## Predicates used to state the claims -/

/-- A progression record carries only non-negative weights (in lbs): its
stored last weight and any `increase` target.  This holds for every record
the analyzer derives from a history whose logged weights are non-negative. -/
def ProgressionRecord.nonneg (p : ProgressionRecord) : Prop :=
  0 ≤ p.lastWeightLbs ∧ ∀ t, p.suggestion = .increase t → 0 ≤ t

/-- The planned-set discipline of one routine entry: either all its sets are
duration sets (45s hold, no reps), or all its sets are load sets (reps
present, no duration, non-negative weight). -/
def GoodSets (sets : List PlannedSet) : Prop :=
  (∀ s ∈ sets, s.duration_seconds = some 45 ∧ s.reps = none) ∨
  (∀ s ∈ sets, s.duration_seconds = none ∧ s.reps.isSome = true ∧
    ∃ w, s.weight_kg = some w ∧ 0 ≤ w)

/-- A non-negative logged history: every present `weight_kg` is `≥ 0`
(weights are masses; the Hevy API never reports negative ones). -/
def NonnegHistory (workouts : List Workout) : Prop :=
  ∀ w ∈ workouts, ∀ ex ∈ w.exercises, ∀ s ∈ ex.sets, ∀ q, s.weight_kg = some q → 0 ≤ q

/-! ## Concrete scenario data -/

/-- Reference "now" for the scenarios (an arbitrary positive timestamp). -/
def scNow : ℤ := 1000 * dayMs

/-- A chest (Push), lats (Pull), quads (Legs) and abdominals (Core) template. -/
def tChest : Template := ⟨"t-chest", "Bench Press (Barbell)", "chest", "barbell"⟩

def tLats : Template := ⟨"t-lats", "Lat Pulldown (Cable)", "lats", "machine"⟩

def tQuads : Template := ⟨"t-quads", "Squat (Barbell)", "quads", "barbell"⟩

def tAbs : Template := ⟨"t-abs", "Crunch", "abdominals", "none"⟩

def scTemplates : List Template := [tChest, tLats, tQuads, tAbs]

/-- A one-exercise workout at a given time, performing the given template
with the given sets. -/
def mkWorkout (t : ℤ) (tpl : Template) (sets : List SetRecord) : Workout :=
  ⟨t, [⟨tpl.title, tpl.id, sets⟩]⟩

/-- C1 failing input: same exercise in two sessions, newest first — the most
recent session (1 day ago) logged 50 kg × 5, an older one (10 days ago)
logged 100 kg × 5. -/
def c1Workouts : List Workout :=
  [mkWorkout (scNow - dayMs) tChest [⟨some 50, some 5, none⟩],
   mkWorkout (scNow - 10 * dayMs) tChest [⟨some 100, some 5, none⟩]]

/-- The progression entry of the C1 history's most recent session (50 kg × 5,
1 day ago): first in `progressionData` because workouts arrive newest-first. -/
def c1New : ProgEntry :=
  ⟨scNow - dayMs, 50, 50 * KG_TO_LBS, 5, 50 * KG_TO_LBS * (5 : ℕ)⟩

/-- The progression entry of the C1 history's older session (100 kg × 5,
10 days ago): last in `progressionData`, hence treated as `lastSet`. -/
def c1Old : ProgEntry :=
  ⟨scNow - 10 * dayMs, 100, 100 * KG_TO_LBS, 5, 100 * KG_TO_LBS * (5 : ℕ)⟩

/-- C4 counterexample session (within the last 7 days): two Pull exercises
followed by one Push exercise — the majority muscle group is Pull, the last
classifiable exercise is Push. -/
def c4Workout : Workout :=
  ⟨scNow - dayMs,
    [⟨tLats.title, tLats.id, []⟩,
     ⟨tLats.title, tLats.id, []⟩,
     ⟨tChest.title, tChest.id, []⟩]⟩

/-- C5 counterexample history: a single Push session completed yesterday. -/
def c5Workouts : List Workout := [mkWorkout (scNow - dayMs) tChest []]

/-- C5 counterexample persisted assignment: `Core` scheduled today (strictly
after the last completed session's day). -/
def c5LastScheduled : LastScheduled := ⟨some .Core, some scNow⟩

/-- Scenario B history (spec §8): Push trained today, Pull trained 3 days
ago, Legs and Core never, nothing else within the week. -/
def c6Workouts : List Workout :=
  [mkWorkout scNow tChest [], mkWorkout (scNow - 3 * dayMs) tLats []]

/-- C7 counterexample history (newest first): Push trained 0.5 and 1.5 days
ago, Pull trained 2.5 days ago, Legs trained 4 and 5 days ago, Core trained
6.5 and 6.8 days ago.  All four splits were hit this week; Pull has the
strictly lowest weekly count (1) and was last trained more than 2 full days
ago (2.5 days), yet `floor(daysAgo) = 2 < 3` makes the scheduler treat it as
recent and fall back to the most overdue split, Core. -/
def c7Workouts : List Workout :=
  [mkWorkout (scNow - 43200000) tChest [],
   mkWorkout (scNow - 129600000) tChest [],
   mkWorkout (scNow - 216000000) tLats [],
   mkWorkout (scNow - 4 * dayMs) tQuads [],
   mkWorkout (scNow - 5 * dayMs) tQuads [],
   mkWorkout (scNow - 561600000) tAbs [],
   mkWorkout (scNow - 587520000) tAbs []]

/-- C3 witness pick: a valid barbell chest exercise with no history. -/
def c3Pick : Pick := ⟨some "t-chest", "Bench Press (Barbell)", "chest", "barbell"⟩

/-- The payload the builder produces for `c3Pick` alone with an empty history
(one solo finisher at the barbell default weight of 20 kg). -/
def c3Payload : RoutinePayload :=
  ⟨"CoachGPT – Push + Abs",
    "Core focus + stability + abs finishers. Push your pace 💥",
    [⟨"t-chest", none, 90, "Finisher – go all in 💪",
      List.replicate 3 ⟨some 8, some 20, none⟩⟩]⟩

/-- C9 witness: the remote list holds a managed routine whose id is not in the
cache file. -/
def c9Remote : List RemoteRoutine := [⟨"ghost-1", "CoachGPT – Push + Abs"⟩]

def c9Cache : List RemoteRoutine := [⟨"trusted-2", "CoachGPT – Legs + Abs"⟩]

/-! # Theorems -/

/-- **C8.** Every call through the shared retry wrapper behaves as specified:
an error whose status is neither 429 nor ≥ 500 propagates immediately (one
call, no delay, for any `maxAttempts ≥ 1`), while with the default
`maxAttempts = 5` a persistently retryable failure is attempted exactly 5
times with delays `baseDelayMs * 2 ^ (attempt - 1)` between consecutive
attempts, after which the error propagates. -/
theorem c8_retry_wrapper (remote : ℕ → Except (Option ℕ) Unit)
    (maxAttempts baseDelayMs callIdx : ℕ) (status : Option ℕ)
    (hmax : 1 ≤ maxAttempts) (hfail : remote callIdx = .error status) :
    (isRetryableStatus status = false →
      makeApiRequestWithRetry remote maxAttempts baseDelayMs callIdx =
        (.error status, callIdx + 1, [])) ∧
    ((∀ k, remote k = .error status) → isRetryableStatus status = true →
      makeApiRequestWithRetry remote 5 baseDelayMs callIdx =
        (.error status, callIdx + 5,
          [baseDelayMs * 2 ^ 0, baseDelayMs * 2 ^ 1, baseDelayMs * 2 ^ 2,
            baseDelayMs * 2 ^ 3])) := by
  constructor
  · intro hnr
    obtain ⟨m, rfl⟩ : ∃ m, maxAttempts = m + 1 := ⟨maxAttempts - 1, by omega⟩
    simp [makeApiRequestWithRetry, List.range', apiRetryGo, hfail, hnr]
  · intro hall hr
    simp [makeApiRequestWithRetry, List.range', apiRetryGo, hall, hr]

/-- **C8 witness**: a 404 on the first call propagates immediately; a
persistent 429 is attempted exactly 5 times with doubling delays. -/
theorem c8_witness :
    makeApiRequestWithRetry (fun _ => .error (some 404)) 5 2000 0 =
      (.error (some 404), 1, []) ∧
    makeApiRequestWithRetry (fun _ => .error (some 429)) 5 2000 0 =
      (.error (some 429), 5, [2000 * 2 ^ 0, 2000 * 2 ^ 1, 2000 * 2 ^ 2, 2000 * 2 ^ 3]) :=
  ⟨(c8_retry_wrapper (fun _ => .error (some 404)) 5 2000 0 (some 404)
      (by norm_num) rfl).1 rfl,
    by
      have h := (c8_retry_wrapper (fun _ => .error (some 429)) 5 2000 0 (some 429)
        (by norm_num) rfl).2 (fun k => rfl) rfl
      simpa using h⟩

/-- **C2 counterexample.** In scenario D (HTTP 429 on the first four calls,
success on the fifth) the run does succeed and the call is attempted exactly
5 times — but the delays between consecutive attempts are 1000, 2000, 2000,
1000 ms, which is *not* strictly increasing, contradicting the claim. -/
theorem c2_counterexample :
    (updateRoutine remote429x4).1 = .ok () ∧
    (updateRoutine remote429x4).2.1 = 5 ∧
    ¬ List.Chain' (· < ·) (updateRoutine remote429x4).2.2 :=
  ⟨rfl, rfl, by
    intro h
    rw [show (updateRoutine remote429x4).2.2 = [1000, 2000, 2000, 1000] from rfl] at h
    simp [List.chain'_cons] at h⟩

/-- **C2 (amended).** A failing routine update is retried in an outer loop of
5 attempts with outer back-off `2000 * 2 ^ (attempt - 1)` ms, but each outer
attempt itself wraps the PUT in the shared wrapper with 3 attempts and base
1000 ms; when every attempt fails the error propagates (no creation
fall-back).  In scenario D the run succeeds after exactly 5 calls with
delays 1000, 2000, 2000, 1000 ms (not strictly increasing); under a
persistent 429 the PUT is issued 15 times and the error propagates. -/
theorem c2_amended :
    updateRoutine remote429x4 = (.ok (), 5, [1000, 2000, 2000, 1000]) ∧
    updateRoutine (fun _ => .error (some 429)) =
      (.error "Failed to update routine after 5 attempts", 15,
        [1000, 2000, 2000, 1000, 2000, 4000, 1000, 2000, 8000, 1000, 2000, 16000,
          1000, 2000]) :=
  ⟨rfl, rfl⟩

/-- **C9.** If the remote routine list contains a managed (CoachGPT-titled)
routine whose id is absent from the existing local cache file, the
synchronizer discards it and takes the creation path rather than updating
the untrusted id. -/
theorem c9_untrusted_id_forces_create (routines cached : List RemoteRoutine)
    (r : RemoteRoutine) (hfind : findExistingRoutine routines = some r)
    (habsent : ∀ c ∈ cached, c.id ≠ r.id) :
    syncDecision routines (some cached) = .create := by
  have hany : cached.any (fun c => c.id == r.id) = false := by
    rw [List.any_eq_false]
    intro c hc
    simpa using habsent c hc
  simp [syncDecision, hfind, hany]

/-- **C9 witness**: concrete remote list with a ghost CoachGPT routine id
absent from the cache. -/
theorem c9_witness : syncDecision c9Remote (some c9Cache) = .create :=
  c9_untrusted_id_forces_create c9Remote c9Cache ⟨"ghost-1", "CoachGPT – Push + Abs"⟩
    (by decide) (by decide)

/-- Stable ascending sort by weekly count: the chosen split is one of the
four and its weekly count is minimal. -/
theorem leastFrequentSplit_spec (wf : WeeklySplitFrequency) :
    leastFrequentSplit wf ∈ fourSplits ∧
    ∀ s ∈ fourSplits, wf.count (leastFrequentSplit wf) ≤ wf.count s := by
  have hpair : ∀ p ∈ splitFrequencies wf, p.1 ∈ fourSplits ∧ p.2 = wf.count p.1 := by
    intro p hp
    simp only [splitFrequencies, List.mem_cons, List.not_mem_nil, or_false] at hp
    rcases hp with rfl | rfl | rfl | rfl <;> simp [fourSplits, WeeklySplitFrequency.count]
  have hmem : ∀ s ∈ fourSplits, (s, wf.count s) ∈ splitFrequencies wf := by
    intro s hs
    simp only [fourSplits, List.mem_cons, List.not_mem_nil, or_false] at hs
    rcases hs with rfl | rfl | rfl | rfl <;>
      simp [splitFrequencies, WeeklySplitFrequency.count]
  have hperm := List.perm_insertionSort (fun a b : Split × ℕ => a.2 ≤ b.2)
    (splitFrequencies wf)
  have hsorted := List.sorted_insertionSort (fun a b : Split × ℕ => a.2 ≤ b.2)
    (splitFrequencies wf)
  unfold leastFrequentSplit
  cases h : (splitFrequencies wf).insertionSort (fun a b => a.2 ≤ b.2) with
  | nil =>
    exfalso
    have hlen := hperm.length_eq
    rw [h] at hlen
    simp [splitFrequencies] at hlen
  | cons x t =>
    rw [h] at hperm hsorted
    have hx : x ∈ splitFrequencies wf := hperm.subset (List.mem_cons_self x t)
    obtain ⟨hx4, hxc⟩ := hpair x hx
    simp only [List.headD]
    refine ⟨hx4, ?_⟩
    intro s hs
    have hmem' : (s, wf.count s) ∈ x :: t := hperm.mem_iff.mpr (hmem s hs)
    rcases List.mem_cons.mp hmem' with h1 | h1
    · have hx1 : x.1 = s := by rw [← h1]
      rw [hx1]
    · have hrel := List.rel_of_sorted_cons hsorted _ h1
      rw [← hxc]
      exact hrel

/-- Stable descending sort by days-since-last-hit: the chosen split is one of
the four and its age is maximal. -/
theorem mostOverdueSplit_spec (templates : List Template) (workouts : List Workout)
    (now : ℤ) :
    mostOverdueSplit templates workouts now ∈ fourSplits ∧
    ∀ s ∈ fourSplits,
      splitDaysAgo templates workouts now s ≤
        splitDaysAgo templates workouts now (mostOverdueSplit templates workouts now) := by
  have hpair : ∀ p ∈ splitAges templates workouts now,
      p.1 ∈ fourSplits ∧ p.2 = splitDaysAgo templates workouts now p.1 := by
    intro p hp
    simp only [splitAges, List.mem_map] at hp
    obtain ⟨s, hs, rfl⟩ := hp
    exact ⟨hs, rfl⟩
  have hmem : ∀ s ∈ fourSplits,
      (s, splitDaysAgo templates workouts now s) ∈ splitAges templates workouts now := by
    intro s hs
    exact List.mem_map_of_mem _ hs
  have hperm := List.perm_insertionSort (fun a b : Split × ℤ => b.2 ≤ a.2)
    (splitAges templates workouts now)
  have hsorted := List.sorted_insertionSort (fun a b : Split × ℤ => b.2 ≤ a.2)
    (splitAges templates workouts now)
  unfold mostOverdueSplit
  cases h : (splitAges templates workouts now).insertionSort (fun a b => b.2 ≤ a.2) with
  | nil =>
    exfalso
    have hlen := hperm.length_eq
    rw [h] at hlen
    simp [splitAges, fourSplits] at hlen
  | cons x t =>
    rw [h] at hperm hsorted
    have hx : x ∈ splitAges templates workouts now := hperm.subset (List.mem_cons_self x t)
    obtain ⟨hx4, hxc⟩ := hpair x hx
    simp only [List.headD]
    refine ⟨hx4, ?_⟩
    intro s hs
    have hmem' : (s, splitDaysAgo templates workouts now s) ∈ x :: t :=
      hperm.mem_iff.mpr (hmem s hs)
    rcases List.mem_cons.mp hmem' with h1 | h1
    · have hx1 : x.1 = s := by rw [← h1]
      rw [hx1]
    · have hrel := List.rel_of_sorted_cons hsorted _ h1
      rw [← hxc]
      exact hrel

/-- The current scheduler always answers one of the four rotation splits. -/
theorem determineWorkoutTypeByLastHit_mem (templates : List Template)
    (workouts : List Workout) (wf : WeeklySplitFrequency) (now : ℤ) :
    determineWorkoutTypeByLastHit templates workouts wf now ∈ fourSplits := by
  simp only [determineWorkoutTypeByLastHit]
  split
  · next c rest hn =>
    exact List.mem_of_mem_filter (hn ▸ List.mem_cons_self c rest)
  · next hn =>
    split
    · exact (mostOverdueSplit_spec templates workouts now).1
    · exact (leastFrequentSplit_spec wf).1

/-- **C10.** For every history and catalog, the current Split Scheduler
returns one of Push, Pull, Legs, Core and never Cardio; consequently the
`workoutType === 'Cardio'` branches of the autoplan run are unreachable
under this scheduler (for any persisted state). -/
theorem c10_scheduler_never_cardio (templates : List Template) (workouts : List Workout)
    (wf : WeeklySplitFrequency) (now : ℤ) :
    determineWorkoutTypeByLastHit templates workouts wf now ∈ fourSplits ∧
    determineWorkoutTypeByLastHit templates workouts wf now ≠ .Cardio ∧
    ∀ ls : LastScheduled, autoplanScheduleSplit templates workouts ls now ≠ .Cardio := by
  refine ⟨determineWorkoutTypeByLastHit_mem templates workouts wf now, ?_, ?_⟩
  · intro h
    have := determineWorkoutTypeByLastHit_mem templates workouts wf now
    rw [h] at this
    exact absurd this (by decide)
  · intro ls h
    have := determineWorkoutTypeByLastHit_mem templates workouts
      (weeklySplitFrequency templates workouts now) now
    rw [show autoplanScheduleSplit templates workouts ls now =
      determineWorkoutTypeByLastHit templates workouts
        (weeklySplitFrequency templates workouts now) now from rfl] at h
    rw [h] at this
    exact absurd this (by decide)

/-- **C10 witness**: the scheduler's answer on the scenario-B history is one
of the four rotation splits. -/
theorem c10_witness :
    determineWorkoutTypeByLastHit scTemplates c6Workouts
      (weeklySplitFrequency scTemplates c6Workouts scNow) scNow ∈ fourSplits :=
  (c10_scheduler_never_cardio scTemplates c6Workouts
    (weeklySplitFrequency scTemplates c6Workouts scNow) scNow).1

/-- **C6.** Whenever some split has zero sessions in the current 7-day
window, the scheduler returns a split with zero sessions that week; and in
scenario B (Push trained today, Pull 3 days ago, Legs and Core never) the
full pipeline returns Legs — one of the two untrained splits, not Push or
Pull. -/
theorem c6_coverage_first :
    (∀ (templates : List Template) (workouts : List Workout)
        (wf : WeeklySplitFrequency) (now : ℤ) (s : Split),
      s ∈ fourSplits → wf.count s = 0 →
      wf.count (determineWorkoutTypeByLastHit templates workouts wf now) = 0) ∧
    determineWorkoutTypeByLastHit scTemplates c6Workouts
      (weeklySplitFrequency scTemplates c6Workouts scNow) scNow = .Legs := by
  constructor
  · intro t ws wf now s hs hz
    simp only [determineWorkoutTypeByLastHit]
    split
    · next c rest hn =>
      have hc : c ∈ fourSplits.filter (fun s => wf.count s == 0) :=
        hn ▸ List.mem_cons_self c rest
      simpa using List.of_mem_filter hc
    · next hn =>
      exfalso
      have : s ∈ fourSplits.filter (fun s => wf.count s == 0) :=
        List.mem_filter.mpr ⟨hs, by simpa using hz⟩
      rw [hn] at this
      simp at this
  · decide

/-- **C6 witness**: the general part applied to scenario B. -/
theorem c6_witness :
    (weeklySplitFrequency scTemplates c6Workouts scNow).count
      (determineWorkoutTypeByLastHit scTemplates c6Workouts
        (weeklySplitFrequency scTemplates c6Workouts scNow) scNow) = 0 :=
  c6_coverage_first.1 scTemplates c6Workouts
    (weeklySplitFrequency scTemplates c6Workouts scNow) scNow .Legs
    (by decide) (by decide)

/-- **C5 counterexample.** With a persisted assignment (`Core`, dated after
the only — and most recent — completed session), the current scheduling step
does not return the persisted split: it runs the rotation and returns Pull. -/
theorem c5_counterexample :
    c5LastScheduled.workoutType = some .Core ∧
    (∀ w ∈ c5Workouts, dayIndex w.start_time < dayIndex (c5LastScheduled.date.getD 0)) ∧
    autoplanScheduleSplit scTemplates c5Workouts c5LastScheduled scNow = .Pull ∧
    (Split.Pull ≠ Split.Core) := by
  refine ⟨rfl, by decide, by decide, by decide⟩

/-- **C5 (amended).** The persisted-split retry policy lives only in the
legacy scheduler `determineWorkoutType`: when the persisted split and date
are present and the persisted date's day is strictly after the last
completed session's day (or no session was ever completed), it returns the
persisted split unchanged before any rotation logic.  The current scheduling
step (`determineWorkoutTypeByLastHit`, as wired in `autoplan`) never
consults the persisted assignment: its result is identical for any two
persisted states. -/
theorem c5_amended :
    (∀ (templates : List Template) (workouts : List Workout) (wt : Split) (d : ℤ)
        (lastCompleted : Option Workout),
      (∀ w, lastCompleted = some w → dayIndex w.start_time < dayIndex d) →
      determineWorkoutType templates workouts ⟨some wt, some d⟩ lastCompleted = wt) ∧
    (∀ (templates : List Template) (workouts : List Workout)
        (ls ls' : LastScheduled) (now : ℤ),
      autoplanScheduleSplit templates workouts ls now =
        autoplanScheduleSplit templates workouts ls' now) := by
  constructor
  · intro t ws wt d lc h
    cases lc with
    | none => rfl
    | some w => simp [determineWorkoutType, h w rfl]
  · intro t ws ls ls' now
    rfl

/-- **C5 amended witness**: a Push assignment scheduled on day 5 with the
last session on day 3 is returned verbatim by the legacy scheduler. -/
theorem c5_witness :
    determineWorkoutType scTemplates [] ⟨some .Push, some (5 * dayMs)⟩
      (some ⟨3 * dayMs, []⟩) = .Push :=
  c5_amended.1 scTemplates [] .Push (5 * dayMs) (some ⟨3 * dayMs, []⟩)
    (fun w hw => by cases hw; decide)

/-- Each entry of `splitAges` pairs one of the four splits with its
`splitDaysAgo` value. -/
theorem splitAges_pair (templates : List Template) (workouts : List Workout) (now : ℤ)
    (p : Split × ℤ) (hp : p ∈ splitAges templates workouts now) :
    p.1 ∈ fourSplits ∧ p.2 = splitDaysAgo templates workouts now p.1 := by
  simp only [splitAges, List.mem_map] at hp
  obtain ⟨s, hs, rfl⟩ := hp
  exact ⟨hs, rfl⟩

/-- Membership in `recentSplits` (the splits with `daysAgo < 3`) is exactly
`splitDaysAgo < 3`, for any of the four splits. -/
theorem mem_recentSplits_iff (templates : List Template) (workouts : List Workout)
    (now : ℤ) (L : Split) (hL : L ∈ fourSplits) :
    (L ∈ ((splitAges templates workouts now).filter fun p => decide (p.2 < 3)).map
        Prod.fst) ↔
      splitDaysAgo templates workouts now L < 3 := by
  constructor
  · intro h
    simp only [List.mem_map, List.mem_filter] at h
    obtain ⟨p, ⟨hp, hlt⟩, rfl⟩ := h
    have hpd := (splitAges_pair templates workouts now p hp).2
    have := of_decide_eq_true hlt
    rwa [hpd] at this
  · intro h
    refine List.mem_map.mpr
      ⟨(L, splitDaysAgo templates workouts now L),
        List.mem_filter.mpr ⟨List.mem_map_of_mem _ hL, decide_eq_true h⟩, rfl⟩

/-- **C7 counterexample.** A week where every split was trained (counts Push
2, Pull 1, Legs 2, Core 2) and Pull — the unique least-frequent split — was
last trained 2.5 days ago, i.e. *not* within the last 2 days.  The claim
demands Pull; the scheduler classifies Pull as recent (`floor(daysAgo) = 2 <
3`) and returns the most overdue split, Core. -/
theorem c7_counterexample :
    (∀ s ∈ fourSplits, 0 < (weeklySplitFrequency scTemplates c7Workouts scNow).count s) ∧
    (∀ s ∈ fourSplits, s ≠ .Pull →
      (weeklySplitFrequency scTemplates c7Workouts scNow).count .Pull <
        (weeklySplitFrequency scTemplates c7Workouts scNow).count s) ∧
    lastHit scTemplates c7Workouts .Pull = some (scNow - 216000000) ∧
    2 * dayMs < 216000000 ∧
    determineWorkoutTypeByLastHit scTemplates c7Workouts
      (weeklySplitFrequency scTemplates c7Workouts scNow) scNow = .Core ∧
    Split.Core ≠ Split.Pull := by
  refine ⟨by decide, by decide, by decide, by decide, by decide, by decide⟩

/-- **C7 (amended).** When every split has at least one session in the
current 7-day window, the scheduler returns the least-frequent split (first
under the stable ascending sort, so its weekly count is minimal) exactly
when `floor((now - lastHit) / day) ≥ 3` — a 3-day guard, not 2; otherwise it
returns the most-overdue split (maximal days-since-last-hit), which can
itself be any split, including the least-frequent one. -/
theorem c7_amended (templates : List Template) (workouts : List Workout)
    (wf : WeeklySplitFrequency) (now : ℤ)
    (hall : ∀ s ∈ fourSplits, wf.count s ≠ 0) :
    (3 ≤ splitDaysAgo templates workouts now (leastFrequentSplit wf) →
      determineWorkoutTypeByLastHit templates workouts wf now = leastFrequentSplit wf ∧
      ∀ s ∈ fourSplits, wf.count (leastFrequentSplit wf) ≤ wf.count s) ∧
    (splitDaysAgo templates workouts now (leastFrequentSplit wf) < 3 →
      determineWorkoutTypeByLastHit templates workouts wf now =
        mostOverdueSplit templates workouts now ∧
      ∀ s ∈ fourSplits,
        splitDaysAgo templates workouts now s ≤
          splitDaysAgo templates workouts now (mostOverdueSplit templates workouts now)) := by
  have hnil : fourSplits.filter (fun s => wf.count s == 0) = [] := by
    rw [List.filter_eq_nil_iff]
    intro s hs
    simpa using hall s hs
  have hLmem := (leastFrequentSplit_spec wf).1
  constructor
  · intro hge
    have hnotmem : leastFrequentSplit wf ∉
        ((splitAges templates workouts now).filter fun p => decide (p.2 < 3)).map
          Prod.fst := by
      intro hmem'
      have := (mem_recentSplits_iff templates workouts now _ hLmem).mp hmem'
      omega
    refine ⟨?_, (leastFrequentSplit_spec wf).2⟩
    simp only [determineWorkoutTypeByLastHit, hnil]
    rw [if_neg hnotmem]
  · intro hlt
    have hmem' : leastFrequentSplit wf ∈
        ((splitAges templates workouts now).filter fun p => decide (p.2 < 3)).map
          Prod.fst :=
      (mem_recentSplits_iff templates workouts now _ hLmem).mpr hlt
    refine ⟨?_, (mostOverdueSplit_spec templates workouts now).2⟩
    simp only [determineWorkoutTypeByLastHit, hnil]
    rw [if_pos hmem']

/-- **C7 amended witness**: on the C7 scenario (all splits trained, Pull
least frequent with `daysAgo = 2 < 3`) the amended theorem yields the
most-overdue split. -/
theorem c7_witness :
    determineWorkoutTypeByLastHit scTemplates c7Workouts
        (weeklySplitFrequency scTemplates c7Workouts scNow) scNow =
      mostOverdueSplit scTemplates c7Workouts scNow :=
  ((c7_amended scTemplates c7Workouts
      (weeklySplitFrequency scTemplates c7Workouts scNow) scNow
      (by decide)).2 (by decide)).1

/-- The last-assignment-wins fold of the classification loop equals the last
element of the classifiable-exercise list (with the accumulator as
fall-back). -/
theorem foldl_lastwins (f : ExercisePerformance → Option Split) :
    ∀ (l : List ExercisePerformance) (acc : Option Split),
      l.foldl (fun a e => match f e with | some s => some s | none => a) acc =
        ((l.filterMap f).getLast?).elim acc some := by
  intro l
  induction l with
  | nil => intro acc; rfl
  | cons e l ih =>
    intro acc
    rw [List.foldl_cons, ih]
    cases hfe : f e with
    | none => simp [List.filterMap_cons, hfe]
    | some s =>
      simp only [List.filterMap_cons, hfe]
      cases hL : (l.filterMap f).getLast? with
      | none =>
        have : l.filterMap f = [] := List.getLast?_eq_none_iff.mp hL
        simp [this]
      | some x =>
        simp [List.getLast?_cons, List.getLastD_eq_getLast?, hL]

/-- `workoutSplit` is the split of the *last* classifiable exercise of the
session. -/
theorem classifyWorkout_eq_getLast (templates : List Template) (w : Workout) :
    classifyWorkout templates w =
      (w.exercises.filterMap (exerciseSplit templates)).getLast? := by
  unfold classifyWorkout
  rw [foldl_lastwins]
  cases (w.exercises.filterMap (exerciseSplit templates)).getLast? <;> rfl

/-- `weeklySplitFrequency[s]++` increments exactly the matching key. -/
theorem bumpSplit_count (wf : WeeklySplitFrequency) (o : Option Split) (s : Split)
    (hs : s ∈ fourSplits) :
    (bumpSplit wf o).count s = wf.count s + (if o = some s then 1 else 0) := by
  simp only [fourSplits, List.mem_cons, List.not_mem_nil, or_false] at hs
  cases o with
  | none => simp [bumpSplit]
  | some s' =>
    rcases hs with rfl | rfl | rfl | rfl <;> cases s' <;>
      simp [bumpSplit, WeeklySplitFrequency.count]

/-- The weekly-count fold counts exactly the in-window workouts classified to
the given split. -/
theorem wsf_count_foldl (templates : List Template) (now : ℤ) (s : Split)
    (hs : s ∈ fourSplits) :
    ∀ (l : List Workout) (init : WeeklySplitFrequency),
      (l.foldl
        (fun wf w =>
          if now - 7 * dayMs ≤ w.start_time then
            bumpSplit wf (classifyWorkout templates w)
          else wf)
        init).count s =
      init.count s +
        l.countP (fun w =>
          decide (now - 7 * dayMs ≤ w.start_time) &&
            (classifyWorkout templates w == some s)) := by
  intro l
  induction l with
  | nil => intro init; simp
  | cons w l ih =>
    intro init
    rw [List.foldl_cons, ih, List.countP_cons]
    have hstep :
        (if now - 7 * dayMs ≤ w.start_time then
            bumpSplit init (classifyWorkout templates w)
          else init).count s =
          init.count s +
            (if (decide (now - 7 * dayMs ≤ w.start_time) &&
                (classifyWorkout templates w == some s)) = true then 1 else 0) := by
      by_cases hin : now - 7 * dayMs ≤ w.start_time
      · rw [if_pos hin, bumpSplit_count init _ s hs]
        by_cases hcl : classifyWorkout templates w = some s
        · simp [hcl, hin]
        · simp [hcl, hin]
      · rw [if_neg hin]
        simp [hin]
    rw [hstep]
    omega

/-- **C4 counterexample.** A session within the last 7 days whose exercises
classify to Pull, Pull, Push: the majority of touched muscle groups is
Pull, yet the analyzer increments Push (the last classifiable exercise) and
leaves Pull's weekly count at 0. -/
theorem c4_counterexample :
    scNow - 7 * dayMs ≤ c4Workout.start_time ∧
    c4Workout.exercises.filterMap (exerciseSplit scTemplates) =
      [.Pull, .Pull, .Push] ∧
    weeklySplitFrequency scTemplates [c4Workout] scNow =
      ⟨1, 0, 0, 0⟩ := by
  refine ⟨by decide, by decide, by decide⟩

/-- **C4 (amended).** For each session in the 30-session window that occurred
within the last 7 days, the analyzer increments the weekly count of the
split of the session's *last* classifiable exercise (the `if/else if` chain
overwrites on every match); sessions with no classifiable exercise increment
nothing.  Each of the four weekly counts equals the number of in-window
sessions so classified. -/
theorem c4_amended (templates : List Template) (workouts : List Workout) (now : ℤ) :
    (∀ w : Workout,
      classifyWorkout templates w =
        (w.exercises.filterMap (exerciseSplit templates)).getLast?) ∧
    (∀ s : Split, s ∈ fourSplits →
      (weeklySplitFrequency templates workouts now).count s =
        (workouts.take 30).countP (fun w =>
          decide (now - 7 * dayMs ≤ w.start_time) &&
            (classifyWorkout templates w == some s))) := by
  constructor
  · exact fun w => classifyWorkout_eq_getLast templates w
  · intro s hs
    unfold weeklySplitFrequency
    rw [wsf_count_foldl templates now s hs]
    simp [WeeklySplitFrequency.count]
    rcases (by simpa [fourSplits] using hs : s = .Push ∨ s = .Pull ∨ s = .Legs ∨ s = .Core)
      with rfl | rfl | rfl | rfl <;> rfl

/-- **C4 amended witness**: on the counterexample session the amended count
characterization gives Push = 1. -/
theorem c4_witness :
    (weeklySplitFrequency scTemplates [c4Workout] scNow).count .Push =
      ([c4Workout].take 30).countP (fun w =>
        decide (scNow - 7 * dayMs ≤ w.start_time) &&
          (classifyWorkout scTemplates w == some .Push)) :=
  (c4_amended scTemplates [c4Workout] scNow).2 .Push (by decide)

/-- **C1 (code bug).** Volumes are exact products weight × reps, but the
suggestion is computed from the wrong end of the history: with the
newest-first session order (`workouts[0]` is the most recent), the code's
`lastSet = sets[sets.length - 1]` is the *oldest* quantifiable set of the
window.  On the C1 history the most recent set (50 kg × 5) has strictly
lower volume than the prior one (100 kg × 5) and fewer than 10 reps, so the
claim requires "maintain or increase reps" — yet the code emits an
"Increase weight to …" suggestion, because it compares the two oldest sets. -/
theorem c1_progression_wrong_end :
    progressionData scTemplates c1Workouts "Bench Press (Barbell)" = [c1New, c1Old] ∧
    c1New.volume = c1New.weight_lbs * c1New.reps ∧
    c1Old.volume = c1Old.weight_lbs * c1Old.reps ∧
    c1New.volume < c1Old.volume ∧
    c1New.reps < 10 ∧
    (progressionRecord scTemplates c1Workouts "Bench Press (Barbell)").map
      (fun r => r.suggestion.mentionsIncreaseWeightTo) = some true := by
  have hvc : (0 : ℚ) < c1Old.volume - c1New.volume := by
    norm_num [c1Old, c1New, KG_TO_LBS]
  refine ⟨rfl, rfl, rfl, ?_, by decide, ?_⟩
  · norm_num [c1New, c1Old, KG_TO_LBS]
  · unfold progressionRecord
    rw [show (progressionData scTemplates c1Workouts "Bench Press (Barbell)").reverse =
      [c1Old, c1New] from rfl]
    simp only [Option.map_some']
    rw [if_pos hvc]
    rfl

/-- `toFixed(1)` of a non-negative number is non-negative. -/
theorem toFixed1_nonneg {x : ℚ} (hx : 0 ≤ x) : 0 ≤ toFixed1 x := by
  unfold toFixed1
  have h1 : (0 : ℤ) ≤ round (x * 10) := by
    rw [round_eq]
    exact Int.floor_nonneg.mpr (by linarith)
  exact div_nonneg (by exact_mod_cast h1) (by norm_num)

/-- With a non-negative history, every progression entry's pound weight is
non-negative (it is the kg weight of some logged set times `KG_TO_LBS`). -/
theorem progressionData_wl_nonneg (templates : List Template) (workouts : List Workout)
    (title : String) (hW : NonnegHistory workouts) :
    ∀ e ∈ progressionData templates workouts title, 0 ≤ e.weight_lbs := by
  intro e he
  simp only [progressionData, List.mem_flatMap] at he
  obtain ⟨w, hw, ex, hex, hmem⟩ := he
  rw [apply_ite (e ∈ ·)] at hmem
  by_cases hcond : ex.title = title ∧ (findTemplate templates ex).isSome
  · rw [if_pos hcond] at hmem
    obtain ⟨s, hs, hfs⟩ := List.mem_filterMap.mp hmem
    cases hwk : s.weight_kg with
    | none => rw [hwk] at hfs; cases hrp : s.reps <;> rw [hrp] at hfs <;> exact absurd hfs (by simp)
    | some wk =>
      cases hrp : s.reps with
      | none => rw [hwk, hrp] at hfs; exact absurd hfs (by simp)
      | some r =>
        rw [hwk, hrp] at hfs
        have hq : 0 ≤ wk :=
          hW w (List.take_subset 30 workouts hw) ex hex s hs wk hwk
        have : e.weight_lbs = wk * KG_TO_LBS := by
          cases hfs
          rfl
        rw [this]
        exact mul_nonneg hq (by norm_num [KG_TO_LBS])
  · rw [if_neg hcond] at hmem
    exact absurd hmem (by simp)

/-- With a non-negative history, every derived progression record is
non-negative: its stored last weight and any `increase` target. -/
theorem progressionRecord_nonneg (templates : List Template) (workouts : List Workout)
    (title : String) (r : ProgressionRecord) (hW : NonnegHistory workouts)
    (hr : progressionRecord templates workouts title = some r) :
    r.nonneg := by
  unfold progressionRecord at hr
  cases hrev : (progressionData templates workouts title).reverse with
  | nil => rw [hrev] at hr; exact absurd hr (by simp)
  | cons lastSet rest =>
    cases rest with
    | nil => rw [hrev] at hr; exact absurd hr (by simp)
    | cons secondLast rest2 =>
      rw [hrev] at hr
      have hlast : lastSet ∈ progressionData templates workouts title :=
        List.mem_reverse.mp (hrev ▸ List.mem_cons_self lastSet (secondLast :: rest2))
      have hwl := progressionData_wl_nonneg templates workouts title hW lastSet hlast
      cases hr
      constructor
      · exact toFixed1_nonneg hwl
      · intro tgt htgt
        simp only at htgt
        by_cases h1 : 0 < lastSet.volume - secondLast.volume
        · rw [if_pos h1] at htgt
          cases htgt
          exact toFixed1_nonneg (mul_nonneg hwl (by norm_num))
        · rw [if_neg h1] at htgt
          by_cases h2 : 10 ≤ lastSet.reps
          · rw [if_pos h2] at htgt
            exact Suggestion.noConfusion htgt
          · rw [if_neg h2] at htgt
            exact Suggestion.noConfusion htgt

/-- With a non-negative history, every record of `progressionAnalysis` is
non-negative. -/
theorem progressionAnalysis_nonneg (templates : List Template) (workouts : List Workout)
    (hW : NonnegHistory workouts) :
    ∀ p ∈ progressionAnalysis templates workouts, p.2.nonneg := by
  intro p hp
  simp only [progressionAnalysis, List.mem_filterMap] at hp
  obtain ⟨title, _, hmap⟩ := hp
  cases hrec : progressionRecord templates workouts title with
  | none => rw [hrec] at hmap; exact absurd hmap (by simp)
  | some r =>
    rw [hrec] at hmap
    simp only [Option.map_some'] at hmap
    cases hmap
    exact progressionRecord_nonneg templates workouts title r hW hrec

/-- The weight recovered from a non-negative record is non-negative. -/
theorem weightFromRecord_nonneg (r : ProgressionRecord) (h : r.nonneg) :
    0 ≤ weightFromRecord r := by
  have hk : (0 : ℚ) ≤ KG_TO_LBS := by norm_num [KG_TO_LBS]
  unfold weightFromRecord
  split
  · next t heq => exact div_nonneg (h.2 t heq) hk
  · exact div_nonneg h.1 hk

/-- `findSimilarExerciseWeight` never returns a negative weight when every
progression record is non-negative (the equipment defaults are 10/10/20/15/0). -/
theorem findSimilarExerciseWeight_nonneg (templates : List Template)
    (progA : List (String × ProgressionRecord)) (ex : Pick)
    (h : ∀ p ∈ progA, ProgressionRecord.nonneg p.2) :
    0 ≤ findSimilarExerciseWeight templates progA ex := by
  unfold findSimilarExerciseWeight
  split
  · next p hp =>
    cases hq : progA.find? (fun p => p.1 == ex.title) with
    | none => rw [hq] at hp; exact absurd hp (by simp)
    | some q =>
      rw [hq] at hp
      simp only [Option.map_some'] at hp
      cases hp
      exact weightFromRecord_nonneg q.2 (h q (List.mem_of_find?_eq_some hq))
  · next hp =>
    split
    · next p hp2 =>
      unfold borrowRecord at hp2
      cases hq : progA.find? (fun p =>
          match templates.find? (fun t => t.title == p.1) with
          | some t =>
            lowerStr t.primary_muscle_group == lowerStr ex.primary_muscle_group &&
              lowerStr t.equipment == lowerStr ex.equipment
          | none => false) with
      | none => rw [hq] at hp2; exact absurd hp2 (by simp)
      | some q =>
        rw [hq] at hp2
        simp only [Option.map_some'] at hp2
        cases hp2
        exact weightFromRecord_nonneg q.2 (h q (List.mem_of_find?_eq_some hq))
    · next hp2 =>
      split_ifs <;> norm_num

/-- The three planned sets of any entry respect the duration/load discipline
whenever the supplied weight is non-negative. -/
theorem mkSets_good (ex : Pick) (r : ℕ) (w : ℚ) (hw : 0 ≤ w) :
    GoodSets (mkSets ex r w) := by
  unfold mkSets GoodSets
  by_cases hd : isDurationBased ex
  · rw [if_pos hd]
    left
    intro s hs
    rw [List.eq_of_mem_replicate hs]
    exact ⟨rfl, rfl⟩
  · rw [if_neg hd]
    right
    intro s hs
    rw [List.eq_of_mem_replicate hs]
    exact ⟨rfl, by simp, w, rfl, hw⟩

/-- `addSoloEntries` preserves any per-entry property its entry maker
satisfies. -/
theorem addSoloEntries_forall {P : RoutineEntry → Prop} (mk : Pick → RoutineEntry)
    (stopAt : ℕ) (hmk : ∀ ex, P (mk ex)) :
    ∀ (picks : List Pick) (p : List RoutineEntry × List String),
      (∀ e ∈ p.1, P e) →
      ∀ e ∈ (addSoloEntries mk stopAt p picks).1, P e := by
  intro picks
  induction picks with
  | nil =>
    intro p h e he
    obtain ⟨entries, used⟩ := p
    exact h e he
  | cons ex rest ih =>
    intro p h e he
    obtain ⟨entries, used⟩ := p
    have hall : ∀ e' ∈ entries ++ [mk ex], P e' := by
      intro e' he'
      rcases List.mem_append.mp he' with h1 | h1
      · exact h e' h1
      · rw [List.mem_singleton.mp h1]
        exact hmk ex
    simp only [addSoloEntries] at he
    split at he
    · exact hall e he
    · exact ih (entries ++ [mk ex], ex.idStr :: used) hall e he

/-- Every entry of the superset block is well-formed when the weight
resolver is non-negative. -/
theorem supersetBlock_good (fw : Pick → ℚ) (pairs : List (Pick × Pick))
    (hfw : ∀ ex, 0 ≤ fw ex) :
    ∀ e ∈ supersetBlock fw pairs, GoodSets e.sets := by
  intro e he
  simp only [supersetBlock, List.mem_flatMap] at he
  obtain ⟨q, _, hq⟩ := he
  rcases List.mem_cons.mp hq with rfl | hq2
  · exact mkSets_good _ _ _ (hfw q.2.1)
  · rw [List.mem_singleton.mp hq2]
    exact mkSets_good _ _ _ (hfw q.2.2)

/-- Every entry ever placed in the builder state is well-formed. -/
theorem builderState_good (templates : List Template)
    (progA : List (String × ProgressionRecord))
    (hA : ∀ p ∈ progA, ProgressionRecord.nonneg p.2)
    (validExercises validAbsExercises : List Pick) :
    ∀ e ∈ (builderState templates progA validExercises validAbsExercises).1,
      GoodSets e.sets := by
  have hfw : ∀ ex, 0 ≤ findSimilarExerciseWeight templates progA ex :=
    fun ex => findSimilarExerciseWeight_nonneg templates progA ex hA
  have hbase := supersetBlock_good (findSimilarExerciseWeight templates progA)
    ((validExercises.zip validAbsExercises).take 3) hfw
  simp only [builderState]
  split
  · exact addSoloEntries_forall _ _ (fun ex => mkSets_good _ _ _ (hfw ex)) _ _
      (addSoloEntries_forall _ _ (fun ex => mkSets_good _ _ _ (hfw ex)) _ _
        (addSoloEntries_forall _ _ (fun ex => mkSets_good _ _ _ (hfw ex)) _ _ hbase))
  · exact addSoloEntries_forall _ _ (fun ex => mkSets_good _ _ _ (hfw ex)) _ _
      (addSoloEntries_forall _ _ (fun ex => mkSets_good _ _ _ (hfw ex)) _ _ hbase)

/-- The final dedup only keeps entries of its input. -/
theorem dedupById_sub :
    ∀ (l : List RoutineEntry) (seen : List String) (e : RoutineEntry),
      e ∈ dedupById l seen → e ∈ l := by
  intro l
  induction l with
  | nil => intro seen e he; exact absurd he (by simp [dedupById])
  | cons a l ih =>
    intro seen e he
    simp only [dedupById] at he
    split at he
    · exact List.mem_cons_of_mem a (ih seen e he)
    · rcases List.mem_cons.mp he with h1 | h1
      · rw [h1]
        exact List.mem_cons_self _ _
      · exact List.mem_cons_of_mem a (ih _ e h1)

/-- The final dedup produces pairwise distinct template ids, none of which
was already seen. -/
theorem dedupById_nodup :
    ∀ (l : List RoutineEntry) (seen : List String),
      ((dedupById l seen).map (fun e => e.exercise_template_id)).Nodup ∧
      ∀ e ∈ dedupById l seen, e.exercise_template_id ∉ seen := by
  intro l
  induction l with
  | nil => intro seen; exact ⟨by simp [dedupById], by simp [dedupById]⟩
  | cons a l ih =>
    intro seen
    by_cases h : a.exercise_template_id ∈ seen
    · simp only [dedupById, if_pos h]
      exact ih seen
    · simp only [dedupById, if_neg h]
      obtain ⟨ihn, ihs⟩ := ih (a.exercise_template_id :: seen)
      refine ⟨?_, ?_⟩
      · simp only [List.map_cons, List.nodup_cons]
        refine ⟨?_, ihn⟩
        intro hmem
        obtain ⟨e, he, heq⟩ := List.mem_map.mp hmem
        apply ihs e he
        rw [heq]
        exact List.mem_cons_self _ _
      · intro e he
        rcases List.mem_cons.mp he with rfl | he'
        · exact h
        · intro hmem
          exact (ihs e he') (List.mem_cons_of_mem _ hmem)

/-- **C3.** Every routine payload the builder produces from an analysis of a
non-negative history satisfies the claimed invariants: no template id occurs
twice; every entry's sets are either uniformly duration sets (45 s hold, no
reps) or uniformly load sets (reps present, weight ≥ 0); and the set shape
of an entry is governed exactly by `isDurationBased` on its source pick. -/
theorem c3_builder_invariants (templates : List Template) (workouts : List Workout)
    (wt : Split) (exercises absExercises : List Pick) (payload : RoutinePayload)
    (hW : NonnegHistory workouts)
    (hb : buildRoutinePayload templates (progressionAnalysis templates workouts) wt
      exercises absExercises = .ok payload) :
    (payload.exercises.map (fun e => e.exercise_template_id)).Nodup ∧
    (∀ e ∈ payload.exercises, GoodSets e.sets) ∧
    (∀ (ex : Pick) (r : ℕ) (w : ℚ),
      (isDurationBased ex = true →
        mkSets ex r w = List.replicate 3 ⟨none, some 0, some 45⟩) ∧
      (isDurationBased ex = false →
        mkSets ex r w = List.replicate 3 ⟨some r, some w, none⟩)) := by
  have hA := progressionAnalysis_nonneg templates workouts hW
  simp only [buildRoutinePayload] at hb
  split at hb
  · exact absurd hb (by simp)
  · cases hb
    refine ⟨(dedupById_nodup _ _).1, ?_, ?_⟩
    · intro e he
      have h1 := dedupById_sub _ _ e he
      have h2 := List.take_subset 8 _ h1
      exact builderState_good templates _ hA _ _ e h2
    · intro ex r w
      constructor
      · intro hd
        simp [mkSets, hd]
      · intro hd
        simp [mkSets, hd]

/-- **C3 witness**: the builder output for one valid barbell pick and an
empty history — the single-entry payload has pairwise-distinct ids. -/
theorem c3_witness :
    (c3Payload.exercises.map (fun e => e.exercise_template_id)).Nodup :=
  (c3_builder_invariants scTemplates [] .Push [c3Pick] [] c3Payload
    (fun w hw => absurd hw (List.not_mem_nil w)) rfl).1

end Autoplan
